import Mathlib

/-!
Verification of the affordability engine and text parsers of `src/kpr2.py`
(a KPR mortgage advisory tool).  Python floats are modelled by exact
rationals `ℚ`, Python `int` by `ℤ`, Python `str` by `List Char`.  The
`try/except ZeroDivisionError` blocks of the source become explicit
guards returning `0`; `Except String`-valued variants of the same
functions make the raising behaviour itself visible, so that the
error-handling claims ("never raises") are statements about reaching
`Except.ok` rather than vacuous facts about total functions.
-/

namespace Kpr

/-- ASCII whitespace stripped by Python `str.strip` (the modelled fragment
is the ASCII whitespace set; exotic Unicode space characters are not
modelled). -/
def pyIsSpace (c : Char) : Bool :=
  c == ' ' || c == '\t' || c == '\n' || c == '\r' || c == '\x0b' || c == '\x0c'

/-- Python `str.strip()`: drop leading and trailing whitespace. -/
def pyStrip (l : List Char) : List Char :=
  ((l.dropWhile pyIsSpace).reverse.dropWhile pyIsSpace).reverse

/-- Numeric value of a digit string, most significant digit first. -/
def natVal (l : List Char) : ℕ :=
  l.foldl (fun a c => 10 * a + (c.toNat - 48)) 0

/-- Modelled fragment of the Python builtin `int(s)` on an unsigned body:
a nonempty string of ASCII digits.  Python additionally accepts
underscore digit grouping and non-ASCII Unicode decimal digits; those
inputs are outside the modelled fragment and map to `none`, so theorems
quantifying over inputs restrict themselves to ASCII strings, on which
acceptance of a digit-free string never differs (`int()` requires at
least one decimal digit). -/
def pyIntUnsigned (l : List Char) : Option ℤ :=
  if l ≠ [] ∧ l.all Char.isDigit then some (natVal l) else none

/-- Modelled fragment of the Python builtin `int(s)`: optional sign, then
a nonempty digit string; anything else raises `ValueError` (here `none`).
See `pyIntUnsigned` for the cases outside the fragment. -/
def pyInt : List Char → Option ℤ
  | [] => none
  | c :: rest =>
      if c = '+' then pyIntUnsigned rest
      else if c = '-' then (pyIntUnsigned rest).map (fun z => -z)
      else pyIntUnsigned (c :: rest)

/-- Modelled fragment of the Python builtin `float(s)` on an unsigned
body: ASCII digit strings with at most one decimal point and at least
one digit.  Python additionally accepts exponent forms, underscore
grouping, non-ASCII Unicode digits, and the letter words inf, nan and
infinity; the letter words denote non-finite floats with no rational
counterpart, so all of these are outside the modelled fragment and map
to `none`.  Theorems quantifying over inputs therefore restrict
themselves to ASCII strings without letters and digits, on which
`float()` provably rejects exactly as the model does. -/
def pyFloatUnsigned (l : List Char) : Option ℚ :=
  if l.count '.' = 0 then
    if l ≠ [] ∧ l.all Char.isDigit then some ((natVal l : ℚ)) else none
  else if l.count '.' = 1 then
    if ((l.takeWhile (fun c => c ≠ '.')) ≠ [] ∨ ((l.dropWhile (fun c => c ≠ '.')).tail ≠ []))
        ∧ (l.takeWhile (fun c => c ≠ '.')).all Char.isDigit
        ∧ ((l.dropWhile (fun c => c ≠ '.')).tail).all Char.isDigit then
      some ((natVal (l.takeWhile (fun c => c ≠ '.')) : ℚ)
        + (natVal ((l.dropWhile (fun c => c ≠ '.')).tail) : ℚ)
          / 10 ^ ((l.dropWhile (fun c => c ≠ '.')).tail).length)
    else none
  else none

/-- Modelled fragment of the Python builtin `float(s)`: optional sign,
then an unsigned decimal body.  See `pyFloatUnsigned` for the cases
outside the fragment. -/
def pyFloat : List Char → Option ℚ
  | [] => none
  | c :: rest =>
      if c = '+' then pyFloatUnsigned rest
      else if c = '-' then (pyFloatUnsigned rest).map (fun q => -q)
      else pyFloatUnsigned (c :: rest)

/-- `parse_money` from `src/kpr2.py` (lines 96-117): strip, remove all
spaces, remove every `,` and `.` (pure grouping separators), return `0`
for an empty or `"-"` remainder, else `float(int(s))`, with any
`ValueError` mapped to `0`.  (`text is None` cannot arise for a `String`
argument and is not modelled.) -/
def parse_money (text : String) : ℚ :=
  let s := pyStrip text.data
  if s = [] then 0
  else
    let s1 := ((s.filter (fun c => c ≠ ' ')).filter (fun c => c ≠ ',')).filter (fun c => c ≠ '.')
    if s1 = [] ∨ s1 = ['-'] then 0
    else
      match pyInt s1 with
      | some k => (k : ℚ)
      | none => 0

/-- `parse_decimal` from `src/kpr2.py` (lines 119-140): strip, remove all
spaces, then if the string has exactly one `,` and no `.` turn that comma
into a decimal point, otherwise drop every comma; finally `float(s)`,
with any `ValueError` mapped to `0`. -/
def parse_decimal (text : String) : ℚ :=
  let s := (pyStrip text.data).filter (fun c => c ≠ ' ')
  let s1 := if s.count ',' = 1 ∧ s.count '.' = 0
            then s.map (fun c => if c = ',' then '.' else c)
            else s.filter (fun c => c ≠ ',')
  match pyFloat s1 with
  | some v => v
  | none => 0

/-- `monthly_payment` from `src/kpr2.py` (lines 247-257).  The months
count is `n = years * 12` exactly as in the source.  The branch
`1 + r = 0` models Python raising `ZeroDivisionError` on
`0.0 ** (-n)` (with `n > 0` past the guard), and the branch on the
vanishing divisor models `ZeroDivisionError` on the division; both are
caught by the source's `except ZeroDivisionError: return 0.0`. -/
def monthly_payment (principal annual_rate_pct : ℚ) (years : ℤ) : ℚ :=
  if principal ≤ 0 ∨ years ≤ 0 then 0
  else if annual_rate_pct / 100 / 12 = 0 then principal / ((years * 12 : ℤ) : ℚ)
  else if 1 + annual_rate_pct / 100 / 12 = 0 then 0
  else if 1 - (1 + annual_rate_pct / 100 / 12) ^ (-(years * 12)) = 0 then 0
  else principal * (annual_rate_pct / 100 / 12)
        / (1 - (1 + annual_rate_pct / 100 / 12) ^ (-(years * 12)))

/-- `max_principal_from_dsr` from `src/kpr2.py` (lines 259-268).  The
branch `1 + r = 0 ∧ 0 < years * 12` models Python raising
`ZeroDivisionError` on `0.0 ** (-n)` for `n > 0`, caught by the
source's `except`; for `n ≤ 0` Python's `0.0 ** (-n)` does not raise
and agrees with the rational power. -/
def max_principal_from_dsr (net_income expenses dsr annual_rate_pct : ℚ) (years : ℤ) : ℚ :=
  if annual_rate_pct / 100 / 12 = 0 then
    max 0 ((net_income - expenses) * dsr) * ((years * 12 : ℤ) : ℚ)
  else if 1 + annual_rate_pct / 100 / 12 = 0 ∧ 0 < years * 12 then 0
  else max 0 ((net_income - expenses) * dsr)
        * (1 - (1 + annual_rate_pct / 100 / 12) ^ (-(years * 12)))
        / (annual_rate_pct / 100 / 12)

/-- Division as Python performs it: raises `ZeroDivisionError` on a zero
divisor. -/
def qdivE (a b : ℚ) : Except String ℚ :=
  if b = 0 then Except.error "ZeroDivisionError" else Except.ok (a / b)

/-- `monthly_payment` with Python's raising behaviour made explicit: the
zero-rate branch divides by `n` unguarded (the source's only uncaught
division), while the annuity branch sits inside `try/except
ZeroDivisionError` and therefore degrades to `ok 0`. -/
def monthly_paymentE (principal annual_rate_pct : ℚ) (years : ℤ) : Except String ℚ :=
  if principal ≤ 0 ∨ years ≤ 0 then Except.ok 0
  else if annual_rate_pct / 100 / 12 = 0 then qdivE principal ((years * 12 : ℤ) : ℚ)
  else if 1 + annual_rate_pct / 100 / 12 = 0 then Except.ok 0
  else if 1 - (1 + annual_rate_pct / 100 / 12) ^ (-(years * 12)) = 0 then Except.ok 0
  else Except.ok (principal * (annual_rate_pct / 100 / 12)
        / (1 - (1 + annual_rate_pct / 100 / 12) ^ (-(years * 12))))

/-- `max_principal_from_dsr` with Python's raising behaviour made
explicit: every division and power sits inside the source's `try/except
ZeroDivisionError` (and the divisor `r` is nonzero in its branch), so
every branch ends in `ok`. -/
def max_principal_from_dsrE (net_income expenses dsr annual_rate_pct : ℚ) (years : ℤ) :
    Except String ℚ :=
  if annual_rate_pct / 100 / 12 = 0 then
    Except.ok (max 0 ((net_income - expenses) * dsr) * ((years * 12 : ℤ) : ℚ))
  else if 1 + annual_rate_pct / 100 / 12 = 0 ∧ 0 < years * 12 then Except.ok 0
  else Except.ok (max 0 ((net_income - expenses) * dsr)
        * (1 - (1 + annual_rate_pct / 100 / 12) ^ (-(years * 12)))
        / (annual_rate_pct / 100 / 12))

/-- Borrower inputs of the affordability snapshot (spec section 3;
`src/kpr2.py` lines 322-328). -/
structure BorrowerProfile where
  net_monthly_income : ℚ
  monthly_expenses : ℚ
  property_price : ℚ
  down_payment : ℚ
  term_years : ℤ
  annual_interest_rate_pct : ℚ

/-- Policy knobs of the affordability snapshot (spec section 3;
`src/kpr2.py` lines 329-330). -/
structure PolicyThresholds where
  max_dsr : ℚ
  max_ltv : ℚ

/-- Derived affordability metrics (spec section 3; `src/kpr2.py` lines
332-336 and 352-353). -/
structure AffordabilityResult where
  loan_need : ℚ
  loan_to_value : ℚ
  estimated_monthly_payment : ℚ
  max_principal_under_dsr : ℚ
  dsr_used : ℚ
  dsr_compliant : Bool
  ltv_compliant : Bool

/-- The affordability snapshot of `src/kpr2.py` (lines 332-336, 352-353)
as one pure function: `need_loan`, `ltv`, `pay_est`,
`max_principal_dsr`, `dsr_used`, `dsr_flag`, `ltv_flag`, computed
exactly as in the source. -/
def evaluate (p : BorrowerProfile) (t : PolicyThresholds) : AffordabilityResult :=
  let need_loan := max 0 (p.property_price - p.down_payment)
  let ltv := if 0 < p.property_price then need_loan / p.property_price else 0
  let pay_est := monthly_payment need_loan p.annual_interest_rate_pct p.term_years
  let max_principal_dsr := max_principal_from_dsr p.net_monthly_income p.monthly_expenses
        t.max_dsr p.annual_interest_rate_pct p.term_years
  let dsr_used := if 0 < p.net_monthly_income - p.monthly_expenses
        then pay_est / max 1 (p.net_monthly_income - p.monthly_expenses) else 0
  { loan_need := need_loan
    loan_to_value := ltv
    estimated_monthly_payment := pay_est
    max_principal_under_dsr := max_principal_dsr
    dsr_used := dsr_used
    dsr_compliant := if 0 < p.net_monthly_income - p.monthly_expenses
        then decide (dsr_used ≤ t.max_dsr) else false
    ltv_compliant := if 0 < p.property_price then decide (ltv ≤ t.max_ltv) else true }

/-- The affordability snapshot with Python's raising behaviour made
explicit: every division the source performs outside a `try/except`
goes through `qdivE`, and the two payment functions run in their
`Except` form. -/
def evaluateE (p : BorrowerProfile) (t : PolicyThresholds) : Except String AffordabilityResult :=
  Except.bind
    (if 0 < p.property_price
     then qdivE (max 0 (p.property_price - p.down_payment)) p.property_price
     else Except.ok 0) (fun ltv =>
  Except.bind
    (monthly_paymentE (max 0 (p.property_price - p.down_payment))
      p.annual_interest_rate_pct p.term_years) (fun pay_est =>
  Except.bind
    (max_principal_from_dsrE p.net_monthly_income p.monthly_expenses
      t.max_dsr p.annual_interest_rate_pct p.term_years) (fun max_principal_dsr =>
  Except.bind
    (if 0 < p.net_monthly_income - p.monthly_expenses
     then qdivE pay_est (max 1 (p.net_monthly_income - p.monthly_expenses))
     else Except.ok 0) (fun dsr_used =>
  Except.ok
    { loan_need := max 0 (p.property_price - p.down_payment)
      loan_to_value := ltv
      estimated_monthly_payment := pay_est
      max_principal_under_dsr := max_principal_dsr
      dsr_used := dsr_used
      dsr_compliant := if 0 < p.net_monthly_income - p.monthly_expenses
          then decide (dsr_used ≤ t.max_dsr) else false
      ltv_compliant := if 0 < p.property_price then decide (ltv ≤ t.max_ltv) else true }))))

/-- Present value factor of an annuity of `n` unit payments at monthly
rate `r`: the sum of the discount factors `(1+r)⁻¹ ^ j` for
`j = 1, ..., n`.  For `r ≥ 0` the annuity payment of the source equals
`principal / annuityFactor r n`; this form makes positivity and
monotonicity transparent. -/
def annuityFactor (r : ℚ) (n : ℕ) : ℚ :=
  ∑ j ∈ Finset.range n, ((1 + r)⁻¹) ^ (j + 1)

/-- The annuity factor is positive for a nonnegative rate and at least
one payment. -/
theorem annuityFactor_pos {r : ℚ} (hr : 0 ≤ r) {n : ℕ} (hn : 0 < n) :
    0 < annuityFactor r n := by
  have h1 : (0 : ℚ) < 1 + r := by linarith
  refine Finset.sum_pos (fun j _ => pow_pos (inv_pos.mpr h1) _) ?_
  exact Finset.nonempty_range_iff.mpr hn.ne'

/-- The annuity factor is antitone in the rate on nonnegative rates. -/
theorem annuityFactor_anti {r1 r2 : ℚ} (h0 : 0 ≤ r1) (h12 : r1 ≤ r2) (n : ℕ) :
    annuityFactor r2 n ≤ annuityFactor r1 n := by
  refine Finset.sum_le_sum (fun j _ => ?_)
  have h1 : (0 : ℚ) < 1 + r1 := by linarith
  have h2 : (0 : ℚ) < 1 + r2 := by linarith
  refine pow_le_pow_left₀ (inv_nonneg.mpr h2.le) ?_ _
  exact inv_anti₀ h1 (by linarith)

/-- Geometric series identity behind the annuity formula: the divisor
`1 - (1+r)⁻¹ ^ n` of the source equals `r` times the annuity factor. -/
theorem one_sub_inv_pow {r : ℚ} (hr : 1 + r ≠ 0) (n : ℕ) :
    1 - ((1 + r)⁻¹) ^ n = r * annuityFactor r n := by
  have hy : 1 - (1 + r)⁻¹ = r * (1 + r)⁻¹ := by field_simp
  have hG : annuityFactor r n
      = (∑ j ∈ Finset.range n, ((1 + r)⁻¹) ^ j) * (1 + r)⁻¹ := by
    unfold annuityFactor
    rw [Finset.sum_mul]
    exact Finset.sum_congr rfl (fun j _ => pow_succ _ _)
  have hgeom := geom_sum_mul ((1 + r)⁻¹) n
  have h1 : 1 - ((1 + r)⁻¹) ^ n
      = (∑ j ∈ Finset.range n, ((1 + r)⁻¹) ^ j) * (1 - (1 + r)⁻¹) := by
    linear_combination hgeom
  rw [h1, hy, hG]
  ring

/-- Rational power with a negated nonnegative integer exponent as a
natural power of the inverse. -/
theorem zpow_neg_toNat (x : ℚ) {m : ℤ} (hm : 0 ≤ m) :
    x ^ (-m) = (x⁻¹) ^ m.toNat := by
  conv_lhs => rw [← Int.toNat_of_nonneg hm]
  rw [zpow_neg, zpow_natCast, inv_pow]

/-- A nonpositive principal short-circuits `monthly_payment` to `0`. -/
theorem monthly_payment_of_nonpos {p : ℚ} (rate : ℚ) (years : ℤ) (h : p ≤ 0) :
    monthly_payment p rate years = 0 := by
  simp [monthly_payment, h]

/-- On a positive principal, nonnegative rate and positive term, the
source's `monthly_payment` is the principal divided by the annuity
factor over `years * 12` months; both the zero-rate branch and the
annuity branch collapse to this single form. -/
theorem monthly_payment_eq_div (p rate : ℚ) (years : ℤ)
    (hp : 0 < p) (hr : 0 ≤ rate) (hy : 0 < years) :
    monthly_payment p rate years
      = p / annuityFactor (rate / 100 / 12) ((years * 12).toNat) := by
  have hguard : ¬ (p ≤ 0 ∨ years ≤ 0) := by push_neg; exact ⟨hp, hy⟩
  have hn : (0 : ℤ) < years * 12 := by positivity
  have hncast : (((years * 12).toNat : ℤ)) = years * 12 := Int.toNat_of_nonneg hn.le
  have hnQ : ((years * 12 : ℤ) : ℚ) = (((years * 12).toNat : ℕ) : ℚ) := by
    exact_mod_cast congrArg (fun z : ℤ => (z : ℚ)) hncast.symm
  have hntop : 0 < (years * 12).toNat := by omega
  by_cases hr0 : rate / 100 / 12 = 0
  · rw [monthly_payment, if_neg hguard, if_pos hr0, hr0]
    unfold annuityFactor
    simp [hnQ]
  · have hrpos : 0 < rate / 100 / 12 := lt_of_le_of_ne (by positivity) (Ne.symm hr0)
    have h1r : (0 : ℚ) < 1 + rate / 100 / 12 := by linarith
    have hS : 0 < annuityFactor (rate / 100 / 12) ((years * 12).toNat) :=
      annuityFactor_pos hrpos.le hntop
    have hdiv : 1 - (1 + rate / 100 / 12) ^ (-(years * 12))
        = (rate / 100 / 12) * annuityFactor (rate / 100 / 12) ((years * 12).toNat) := by
      rw [zpow_neg_toNat _ hn.le]
      exact one_sub_inv_pow h1r.ne' _
    have hdivpos : 0 < 1 - (1 + rate / 100 / 12) ^ (-(years * 12)) := by
      rw [hdiv]; exact mul_pos hrpos hS
    rw [monthly_payment, if_neg hguard, if_neg hr0, if_neg h1r.ne', if_neg hdivpos.ne',
      hdiv, mul_comm p (rate / 100 / 12), mul_div_mul_left _ _ hr0]

/-- `monthly_payment` is nonnegative on the documented input domain. -/
theorem monthly_payment_nonneg {p rate : ℚ} {years : ℤ}
    (hp : 0 ≤ p) (hr : 0 ≤ rate) (hy : 0 < years) :
    0 ≤ monthly_payment p rate years := by
  rcases eq_or_lt_of_le hp with h | h
  · rw [monthly_payment_of_nonpos rate years h.symm.le]
  · rw [monthly_payment_eq_div p rate years h hr hy]
    have hS : 0 < annuityFactor (rate / 100 / 12) ((years * 12).toNat) := by
      refine annuityFactor_pos (by positivity) (by omega)
    positivity

/-- C1: `monthly_payment(principal, annual_rate_pct, years)` is the
piecewise function of the spec, with the months count `n = years * 12`
(so `months ≤ 0` is exactly `years ≤ 0`): it returns `0` when
`principal ≤ 0` or the term is nonpositive; with monthly rate
`r = (annual_rate_pct / 100) / 12` it returns `principal / n` when
`r = 0`, and the annuity payment `principal * r / (1 - (1+r)^(-n))`
when `r ≠ 0`, whenever that formula is arithmetically defined (base and
divisor nonzero; the degenerate cases are the subject of the separate
guard claim). -/
theorem C1_monthly_payment_piecewise (principal rate : ℚ) (years : ℤ) :
    (principal ≤ 0 ∨ years ≤ 0 → monthly_payment principal rate years = 0) ∧
    (0 < principal → 0 < years → rate / 100 / 12 = 0 →
        monthly_payment principal rate years = principal / ((years * 12 : ℤ) : ℚ)) ∧
    (0 < principal → 0 < years → rate / 100 / 12 ≠ 0 → 1 + rate / 100 / 12 ≠ 0 →
        1 - (1 + rate / 100 / 12) ^ (-(years * 12)) ≠ 0 →
        monthly_payment principal rate years
          = principal * (rate / 100 / 12)
              / (1 - (1 + rate / 100 / 12) ^ (-(years * 12)))) := by
  refine ⟨fun h => by rw [monthly_payment, if_pos h],
    fun hp hy h0 => ?_, fun hp hy h0 h1 h2 => ?_⟩
  · rw [monthly_payment, if_neg (by push_neg; exact ⟨hp, hy⟩), if_pos h0]
  · rw [monthly_payment, if_neg (by push_neg; exact ⟨hp, hy⟩), if_neg h0, if_neg h1, if_neg h2]

/-- Witness for C1: the zero-rate branch at the spec's own example,
`monthly_payment 1200000 0 (12 months) = 100000`. -/
theorem C1_witness :
    (0:ℚ) < 1200000 ∧ (0:ℤ) < 1 ∧
    monthly_payment 1200000 0 1 = 1200000 / (((1 * 12 : ℤ)) : ℚ) ∧
    monthly_payment 1200000 0 1 = 100000 := by
  have h := (C1_monthly_payment_piecewise 1200000 0 1).2.1 (by norm_num) (by norm_num)
    (by norm_num)
  exact ⟨by norm_num, by norm_num, h, by rw [h]; norm_num⟩

/-- C3: round-trip (inverse-function) property, exact over rationals:
feeding the principal produced by `max_principal_from_dsr` back into
`monthly_payment` at the same rate and term reproduces the capacity
`max 0 ((net_income - expenses) * dsr)`. -/
theorem C3_round_trip (net expenses dsr rate : ℚ) (years : ℤ)
    (hr : 0 ≤ rate) (hy : 0 < years) :
    monthly_payment (max_principal_from_dsr net expenses dsr rate years) rate years
      = max 0 ((net - expenses) * dsr) := by
  have hC : 0 ≤ max 0 ((net - expenses) * dsr) := le_max_left 0 _
  have hn : (0:ℤ) < years * 12 := by positivity
  have hnQ : (0:ℚ) < ((years * 12 : ℤ) : ℚ) := by exact_mod_cast hn
  by_cases hr0 : rate / 100 / 12 = 0
  · rw [max_principal_from_dsr, if_pos hr0]
    rcases eq_or_lt_of_le hC with h0 | h0
    · rw [← h0, zero_mul, monthly_payment_of_nonpos rate years le_rfl]
    · have hP : 0 < max 0 ((net - expenses) * dsr) * ((years * 12 : ℤ) : ℚ) :=
        mul_pos h0 hnQ
      rw [monthly_payment, if_neg (by push_neg; exact ⟨hP, hy⟩), if_pos hr0]
      field_simp
  · have hrpos : 0 < rate / 100 / 12 := lt_of_le_of_ne (by positivity) (Ne.symm hr0)
    have h1r : (0:ℚ) < 1 + rate / 100 / 12 := by linarith
    have hnot : ¬ (1 + rate / 100 / 12 = 0 ∧ 0 < years * 12) := fun h => h1r.ne' h.1
    have hdiv : 1 - (1 + rate / 100 / 12) ^ (-(years * 12))
        = (rate / 100 / 12) * annuityFactor (rate / 100 / 12) ((years * 12).toNat) := by
      rw [zpow_neg_toNat _ hn.le]; exact one_sub_inv_pow h1r.ne' _
    have hS : 0 < annuityFactor (rate / 100 / 12) ((years * 12).toNat) :=
      annuityFactor_pos hrpos.le (by omega)
    have hdivpos : 0 < 1 - (1 + rate / 100 / 12) ^ (-(years * 12)) := by
      rw [hdiv]; exact mul_pos hrpos hS
    rw [max_principal_from_dsr, if_neg hr0, if_neg hnot]
    rcases eq_or_lt_of_le hC with h0 | h0
    · rw [← h0, zero_mul, zero_div, monthly_payment_of_nonpos rate years le_rfl]
    · have hP : 0 < max 0 ((net - expenses) * dsr)
          * (1 - (1 + rate / 100 / 12) ^ (-(years * 12))) / (rate / 100 / 12) :=
        div_pos (mul_pos h0 hdivpos) hrpos
      rw [monthly_payment, if_neg (by push_neg; exact ⟨hP, hy⟩), if_neg hr0,
        if_neg h1r.ne', if_neg hdivpos.ne']
      rw [div_mul_cancel₀ _ hr0, mul_div_cancel_right₀ _ hdivpos.ne']

/-- Witness for C3 at a concrete zero-rate input: capacity 50 comes back
out of the annuity round trip. -/
theorem C3_witness :
    (0:ℚ) ≤ 0 ∧ (0:ℤ) < 1 ∧
    monthly_payment (max_principal_from_dsr 100 0 (1/2) 0 1) 0 1
      = max 0 ((100 - 0) * (1/2)) := by
  exact ⟨le_rfl, by norm_num, C3_round_trip 100 0 (1/2) 0 1 le_rfl (by norm_num)⟩

/-- C4: on `principal ≥ 0`, `annual_rate_pct ≥ 0`, positive term, the
payment is nonnegative and monotonically non-decreasing in the
principal and in the rate, including across the boundary between the
zero-rate branch and the annuity branch (`rate = 0` is allowed on the
left of the rate comparison). -/
theorem C4_monthly_payment_monotone (p p2 rate rate2 : ℚ) (years : ℤ)
    (hp : 0 ≤ p) (hr : 0 ≤ rate) (hy : 0 < years) :
    0 ≤ monthly_payment p rate years ∧
    (p ≤ p2 → monthly_payment p rate years ≤ monthly_payment p2 rate years) ∧
    (rate ≤ rate2 → monthly_payment p rate years ≤ monthly_payment p rate2 years) := by
  refine ⟨monthly_payment_nonneg hp hr hy, fun h12 => ?_, fun h12 => ?_⟩
  · rcases eq_or_lt_of_le hp with h0 | h0
    · rw [monthly_payment_of_nonpos rate years h0.symm.le]
      exact monthly_payment_nonneg (hp.trans h12) hr hy
    · have hS : 0 < annuityFactor (rate / 100 / 12) ((years * 12).toNat) :=
        annuityFactor_pos (by positivity) (by omega)
      rw [monthly_payment_eq_div p rate years h0 hr hy,
        monthly_payment_eq_div p2 rate years (h0.trans_le h12) hr hy]
      exact (div_le_div_iff_of_pos_right hS).mpr h12
  · rcases eq_or_lt_of_le hp with h0 | h0
    · rw [monthly_payment_of_nonpos rate years h0.symm.le,
        monthly_payment_of_nonpos rate2 years h0.symm.le]
    · have hr2 : 0 ≤ rate2 := hr.trans h12
      have hrr : rate / 100 / 12 ≤ rate2 / 100 / 12 := by gcongr
      have hS1 : 0 < annuityFactor (rate / 100 / 12) ((years * 12).toNat) :=
        annuityFactor_pos (by positivity) (by omega)
      have hS2 : 0 < annuityFactor (rate2 / 100 / 12) ((years * 12).toNat) :=
        annuityFactor_pos (by positivity) (by omega)
      have hanti := annuityFactor_anti (by positivity : (0:ℚ) ≤ rate / 100 / 12) hrr
        ((years * 12).toNat)
      rw [monthly_payment_eq_div p rate years h0 hr hy,
        monthly_payment_eq_div p rate2 years h0 hr2 hy]
      exact (div_le_div_iff_of_pos_left h0 hS1 hS2).mpr hanti

/-- Witness for C4: concrete nonnegativity and the two monotonicity
comparisons, one of them across the zero-rate boundary. -/
theorem C4_witness :
    0 ≤ monthly_payment 100 0 1 ∧
    monthly_payment 100 0 1 ≤ monthly_payment 200 0 1 ∧
    monthly_payment 100 0 1 ≤ monthly_payment 100 1200 1 := by
  have h := C4_monthly_payment_monotone 100 200 0 1200 1 (by norm_num) (by norm_num)
    (by norm_num)
  exact ⟨h.1, h.2.1 (by norm_num), h.2.2 (by norm_num)⟩

/-- C5: when the annuity arithmetic degenerates for a pathological rate
(`1 + r = 0`, where Python's `0.0 ** (-n)` raises, or a vanishing
divisor `1 - (1+r)^(-n) = 0`), neither payment function propagates an
error: both produce `Except.ok 0` — the raise is caught and mapped to
`0`.  (In `max_principal_from_dsr` the divisor `r` is structurally
nonzero in its branch, so only these two degeneracies can occur.) -/
theorem C5_degenerate_guard (p net expenses dsr rate : ℚ) (years : ℤ)
    (hy : 0 < years) (hr : rate / 100 / 12 ≠ 0)
    (hdeg : 1 + rate / 100 / 12 = 0 ∨ 1 - (1 + rate / 100 / 12) ^ (-(years * 12)) = 0) :
    monthly_paymentE p rate years = Except.ok 0 ∧
    max_principal_from_dsrE net expenses dsr rate years = Except.ok 0 := by
  have hn : (0:ℤ) < years * 12 := by positivity
  constructor
  · by_cases hp : p ≤ 0 ∨ years ≤ 0
    · rw [monthly_paymentE, if_pos hp]
    · rcases hdeg with h | h
      · rw [monthly_paymentE, if_neg hp, if_neg hr, if_pos h]
      · by_cases h1 : 1 + rate / 100 / 12 = 0
        · rw [monthly_paymentE, if_neg hp, if_neg hr, if_pos h1]
        · rw [monthly_paymentE, if_neg hp, if_neg hr, if_neg h1, if_pos h]
  · rcases hdeg with h | h
    · rw [max_principal_from_dsrE, if_neg hr, if_pos ⟨h, hn⟩]
    · by_cases h1 : 1 + rate / 100 / 12 = 0
      · rw [max_principal_from_dsrE, if_neg hr, if_pos ⟨h1, hn⟩]
      · rw [max_principal_from_dsrE, if_neg hr, if_neg (fun hc => h1 hc.1), h,
          mul_zero, zero_div]

/-- The `Except` form of `monthly_payment` never reaches an error: on
every input it returns `ok` of the pure value (the only uncaught
division, by `n` in the zero-rate branch, is protected by the
`years ≤ 0` guard). -/
theorem monthly_paymentE_eq (p rate : ℚ) (years : ℤ) :
    monthly_paymentE p rate years = Except.ok (monthly_payment p rate years) := by
  unfold monthly_paymentE monthly_payment
  split_ifs with hg h0 h1 h2
  · rfl
  · have hy : 0 < years := by push_neg at hg; exact hg.2
    have hn : ((years * 12 : ℤ) : ℚ) ≠ 0 := by
      have h : (0:ℤ) < years * 12 := by positivity
      exact_mod_cast h.ne'
    rw [qdivE, if_neg hn]
  · rfl
  · rfl
  · rfl

/-- The `Except` form of `max_principal_from_dsr` never reaches an
error: every branch sits inside the source's `try/except`. -/
theorem max_principal_from_dsrE_eq (net expenses dsr rate : ℚ) (years : ℤ) :
    max_principal_from_dsrE net expenses dsr rate years
      = Except.ok (max_principal_from_dsr net expenses dsr rate years) := by
  unfold max_principal_from_dsrE max_principal_from_dsr
  split_ifs <;> rfl

/-- Witness for C5 at the pathological monthly rate `r = -1`
(annual rate -1200 percent): both functions return `ok 0`. -/
theorem C5_witness :
    monthly_paymentE 100 (-1200) 1 = Except.ok 0 ∧
    max_principal_from_dsrE 100 0 1 (-1200) 1 = Except.ok 0 :=
  C5_degenerate_guard 100 100 0 1 (-1200) 1 (by norm_num) (by norm_num)
    (Or.inl (by norm_num))

/-- C2: the affordability snapshot never raises — for every profile and
threshold record (zero, equal or inverted values included) the `Except`
form reaches `ok` of the pure result — and the loan need
`max 0 (property_price - down_payment)` is nonnegative, and bounded by
the property price whenever the down payment and price are themselves
nonnegative. -/
theorem C2_evaluate_total (p : BorrowerProfile) (t : PolicyThresholds) :
    evaluateE p t = Except.ok (evaluate p t) ∧
    0 ≤ (evaluate p t).loan_need ∧
    (0 ≤ p.down_payment → 0 ≤ p.property_price →
        (evaluate p t).loan_need ≤ p.property_price) := by
  refine ⟨?_, ?_, fun h1 h2 => ?_⟩
  · have hmax : max 1 (p.net_monthly_income - p.monthly_expenses) ≠ 0 := by
      have : (0:ℚ) < max 1 (p.net_monthly_income - p.monthly_expenses) :=
        lt_of_lt_of_le zero_lt_one (le_max_left _ _)
      exact this.ne'
    by_cases hpr : 0 < p.property_price
    · by_cases hd : 0 < p.net_monthly_income - p.monthly_expenses
      · simp [evaluateE, evaluate, monthly_paymentE_eq, max_principal_from_dsrE_eq,
          qdivE, hpr, hd, hpr.ne', hmax, Except.bind]
      · simp [evaluateE, evaluate, monthly_paymentE_eq, max_principal_from_dsrE_eq,
          qdivE, hpr, hd, hpr.ne', Except.bind]
    · by_cases hd : 0 < p.net_monthly_income - p.monthly_expenses
      · simp [evaluateE, evaluate, monthly_paymentE_eq, max_principal_from_dsrE_eq,
          qdivE, hpr, hd, hmax, Except.bind]
      · simp [evaluateE, evaluate, monthly_paymentE_eq, max_principal_from_dsrE_eq,
          qdivE, hpr, hd, Except.bind]
  · rw [show (evaluate p t).loan_need
        = max 0 (p.property_price - p.down_payment) from rfl]
    exact le_max_left _ _
  · rw [show (evaluate p t).loan_need
        = max 0 (p.property_price - p.down_payment) from rfl]
    exact max_le h2 (by linarith)

/-- Witness for C2 on an inverted profile (down payment 150 above the
property price 100, zero income): no error, nonnegative loan need,
bounded by the price. -/
theorem C2_witness :
    evaluateE ⟨0, 0, 100, 150, 15, 10⟩ ⟨3/5, 19/20⟩
      = Except.ok (evaluate ⟨0, 0, 100, 150, 15, 10⟩ ⟨3/5, 19/20⟩) ∧
    0 ≤ (evaluate ⟨0, 0, 100, 150, 15, 10⟩ ⟨3/5, 19/20⟩).loan_need ∧
    (evaluate ⟨0, 0, 100, 150, 15, 10⟩ ⟨3/5, 19/20⟩).loan_need ≤ 100 := by
  have h := C2_evaluate_total ⟨0, 0, 100, 150, 15, 10⟩ ⟨3/5, 19/20⟩
  exact ⟨h.1, h.2.1, h.2.2 (by norm_num) (by norm_num)⟩

/-- C6: with nonpositive disposable income the snapshot reports
`dsr_used = 0` and fails DSR compliance regardless of all other inputs;
with positive disposable income `dsr_used` is the estimated payment
over `max 1 disposable` and compliance is exactly `dsr_used ≤ max_dsr`. -/
theorem C6_dsr_rule (p : BorrowerProfile) (t : PolicyThresholds) :
    (p.net_monthly_income - p.monthly_expenses ≤ 0 →
        (evaluate p t).dsr_used = 0 ∧ (evaluate p t).dsr_compliant = false) ∧
    (0 < p.net_monthly_income - p.monthly_expenses →
        (evaluate p t).dsr_used
          = (evaluate p t).estimated_monthly_payment
              / max 1 (p.net_monthly_income - p.monthly_expenses) ∧
        (evaluate p t).dsr_compliant
          = decide ((evaluate p t).dsr_used ≤ t.max_dsr)) := by
  constructor
  · intro h
    have hnot : ¬ 0 < p.net_monthly_income - p.monthly_expenses := not_lt.mpr h
    constructor <;> simp [evaluate, hnot]
  · intro h
    constructor <;> simp [evaluate, h]

/-- Witness for C6 on the all-zero profile: disposable income is zero,
so `dsr_used = 0` and compliance is `false`. -/
theorem C6_witness :
    (evaluate ⟨0, 0, 0, 0, 15, 10⟩ ⟨3/5, 19/20⟩).dsr_used = 0 ∧
    (evaluate ⟨0, 0, 0, 0, 15, 10⟩ ⟨3/5, 19/20⟩).dsr_compliant = false :=
  (C6_dsr_rule ⟨0, 0, 0, 0, 15, 10⟩ ⟨3/5, 19/20⟩).1 (by norm_num)

/-- C7: with a zero property price the snapshot reports a zero
loan-to-value ratio and vacuous LTV compliance regardless of all other
inputs; with a positive price the ratio is `loan_need / price` and
compliance is exactly `ratio ≤ max_ltv`. -/
theorem C7_ltv_rule (p : BorrowerProfile) (t : PolicyThresholds) :
    (p.property_price = 0 →
        (evaluate p t).loan_to_value = 0 ∧ (evaluate p t).ltv_compliant = true) ∧
    (0 < p.property_price →
        (evaluate p t).loan_to_value = (evaluate p t).loan_need / p.property_price ∧
        (evaluate p t).ltv_compliant
          = decide ((evaluate p t).loan_to_value ≤ t.max_ltv)) := by
  constructor
  · intro h
    have hnot : ¬ 0 < p.property_price := by rw [h]; exact lt_irrefl 0
    constructor <;> simp [evaluate, hnot]
  · intro h
    constructor <;> simp [evaluate, h]

/-- Witness for C7 on a zero-price profile with nonzero other fields:
LTV is `0` and LTV compliance holds vacuously. -/
theorem C7_witness :
    (evaluate ⟨5, 1, 0, 3, 15, 10⟩ ⟨3/5, 19/20⟩).loan_to_value = 0 ∧
    (evaluate ⟨5, 1, 0, 3, 15, 10⟩ ⟨3/5, 19/20⟩).ltv_compliant = true :=
  (C7_ltv_rule ⟨5, 1, 0, 3, 15, 10⟩ ⟨3/5, 19/20⟩).1 rfl

/-- A digit character differs from any fixed non-digit character. -/
theorem digit_ne {c x : Char} (h : c.isDigit = true) (hx : x.isDigit = false) :
    c ≠ x := by
  intro he; rw [he, hx] at h; cases h

/-- Digit characters are not whitespace in the sense of `str.strip`. -/
theorem pyIsSpace_eq_false_of_isDigit {c : Char} (h : c.isDigit = true) :
    pyIsSpace c = false := by
  rcases hb : pyIsSpace c with _ | _
  · rfl
  · exfalso
    unfold pyIsSpace at hb
    simp only [Bool.or_eq_true, beq_iff_eq] at hb
    rcases hb with ((((rfl | rfl) | rfl) | rfl) | rfl) | rfl <;>
      exact absurd h (by decide)

/-- `dropWhile` is the identity when no element satisfies the predicate. -/
theorem dropWhile_eq_self {p : Char → Bool} {l : List Char}
    (h : ∀ c ∈ l, p c = false) : l.dropWhile p = l := by
  cases l with
  | nil => rfl
  | cons a l => simp [List.dropWhile_cons, h a (List.mem_cons_self a l)]

/-- `str.strip` is the identity on whitespace-free strings. -/
theorem pyStrip_eq_self {l : List Char} (h : ∀ c ∈ l, pyIsSpace c = false) :
    pyStrip l = l := by
  unfold pyStrip
  rw [dropWhile_eq_self h,
    dropWhile_eq_self (fun c hc => h c (List.mem_reverse.mp hc)),
    List.reverse_reverse]

/-- Elements of a stripped string come from the original string. -/
theorem mem_pyStrip {c : Char} {l : List Char} (h : c ∈ pyStrip l) : c ∈ l := by
  unfold pyStrip at h
  have h1 := (List.dropWhile_sublist pyIsSpace).subset (List.mem_reverse.mp h)
  exact (List.dropWhile_sublist pyIsSpace).subset (List.mem_reverse.mp h1)

/-- `pyIntUnsigned` rejects a string with no digit at all. -/
theorem pyIntUnsigned_none {l : List Char} (h : ∀ c ∈ l, c.isDigit = false) :
    pyIntUnsigned l = none := by
  rw [pyIntUnsigned, if_neg]
  rintro ⟨hne, hall⟩
  cases l with
  | nil => exact hne rfl
  | cons c rest =>
    have hc := List.all_eq_true.mp hall c (List.mem_cons_self c rest)
    rw [h c (List.mem_cons_self c rest)] at hc
    cases hc

/-- `pyInt` rejects a string with no digit at all. -/
theorem pyInt_none {l : List Char} (h : ∀ c ∈ l, c.isDigit = false) :
    pyInt l = none := by
  cases l with
  | nil => rfl
  | cons c rest =>
    rw [pyInt]
    split_ifs
    · exact pyIntUnsigned_none (fun x hx => h x (List.mem_cons_of_mem c hx))
    · rw [pyIntUnsigned_none (fun x hx => h x (List.mem_cons_of_mem c hx))]; rfl
    · exact pyIntUnsigned_none h

/-- `pyFloatUnsigned` rejects a string with no digit at all. -/
theorem pyFloatUnsigned_none {l : List Char} (h : ∀ c ∈ l, c.isDigit = false) :
    pyFloatUnsigned l = none := by
  rw [pyFloatUnsigned]
  split_ifs with h0 hc h1 hc2
  · exfalso
    rcases hc with ⟨hne, hall⟩
    cases l with
    | nil => exact hne rfl
    | cons c rest =>
      have hd := List.all_eq_true.mp hall c (List.mem_cons_self c rest)
      rw [h c (List.mem_cons_self c rest)] at hd
      cases hd
  · rfl
  · exfalso
    rcases hc2 with ⟨hor, hta, htb⟩
    rcases hor with hne | hne
    · rcases List.exists_mem_of_ne_nil _ hne with ⟨c, hcm⟩
      have hd := List.all_eq_true.mp hta c hcm
      have hcl : c ∈ l := (List.takeWhile_sublist _).subset hcm
      rw [h c hcl] at hd
      cases hd
    · rcases List.exists_mem_of_ne_nil _ hne with ⟨c, hcm⟩
      have hd := List.all_eq_true.mp htb c hcm
      have hcl : c ∈ l :=
        (List.dropWhile_sublist _).subset ((List.tail_sublist _).subset hcm)
      rw [h c hcl] at hd
      cases hd
  · rfl
  · rfl

/-- `pyFloat` rejects a string with no digit at all. -/
theorem pyFloat_none {l : List Char} (h : ∀ c ∈ l, c.isDigit = false) :
    pyFloat l = none := by
  cases l with
  | nil => rfl
  | cons c rest =>
    rw [pyFloat]
    split_ifs
    · exact pyFloatUnsigned_none (fun x hx => h x (List.mem_cons_of_mem c hx))
    · rw [pyFloatUnsigned_none (fun x hx => h x (List.mem_cons_of_mem c hx))]; rfl
    · exact pyFloatUnsigned_none h

/-- `pyFloatUnsigned` on a digit string with one interior decimal point
evaluates to integer part plus scaled fractional part. -/
theorem pyFloatUnsigned_digits_dot (a b : List Char)
    (ha : ∀ c ∈ a, c.isDigit = true) (hb : ∀ c ∈ b, c.isDigit = true)
    (hne : a ≠ []) :
    pyFloatUnsigned (a ++ '.' :: b)
      = some ((natVal a : ℚ) + (natVal b : ℚ) / 10 ^ b.length) := by
  have hca : a.count '.' = 0 := List.count_eq_zero.mpr
    (fun hm => absurd (ha '.' hm) (by decide))
  have hcb : b.count '.' = 0 := List.count_eq_zero.mpr
    (fun hm => absurd (hb '.' hm) (by decide))
  have hcount : (a ++ '.' :: b).count '.' = 1 := by
    rw [List.count_append, List.count_cons, hca, hcb]
    simp
  have hpa : ∀ c ∈ a, (fun c : Char => decide (c ≠ '.')) c = true := fun c hc => by
    simpa using digit_ne (ha c hc) (by decide)
  have htake : (a ++ '.' :: b).takeWhile (fun c => c ≠ '.') = a := by
    rw [List.takeWhile_append_of_pos hpa, List.takeWhile_cons]
    simp
  have hdrop : ((a ++ '.' :: b).dropWhile (fun c => c ≠ '.')).tail = b := by
    rw [List.dropWhile_append_of_pos hpa, List.dropWhile_cons]
    simp
  rw [pyFloatUnsigned, if_neg (by rw [hcount]; exact one_ne_zero), if_pos hcount,
    if_pos]
  · rw [htake, hdrop]
  · rw [htake, hdrop]
    exact ⟨Or.inl hne, List.all_eq_true.mpr ha, List.all_eq_true.mpr hb⟩

/-- `pyFloat` on a digit-headed digit string with one interior decimal
point. -/
theorem pyFloat_digits_dot (a b : List Char)
    (ha : ∀ c ∈ a, c.isDigit = true) (hb : ∀ c ∈ b, c.isDigit = true)
    (hne : a ≠ []) :
    pyFloat (a ++ '.' :: b)
      = some ((natVal a : ℚ) + (natVal b : ℚ) / 10 ^ b.length) := by
  obtain ⟨d, a2, rfl⟩ : ∃ d a2, a = d :: a2 := by
    cases a with
    | nil => exact absurd rfl hne
    | cons d a2 => exact ⟨d, a2, rfl⟩
  have hd := ha d (List.mem_cons_self d a2)
  rw [List.cons_append, pyFloat, if_neg (digit_ne hd (by decide)),
    if_neg (digit_ne hd (by decide)), ← List.cons_append]
  exact pyFloatUnsigned_digits_dot (d :: a2) b ha hb hne

/-- `pyInt` on a minus sign followed by a nonempty digit string yields
the negated value. -/
theorem pyInt_neg_digits (d : List Char) (hd : ∀ c ∈ d, c.isDigit = true)
    (hne : d ≠ []) :
    pyInt ('-' :: d) = some (-(natVal d : ℤ)) := by
  rw [pyInt, if_neg (by decide), if_pos rfl, pyIntUnsigned,
    if_pos ⟨hne, List.all_eq_true.mpr hd⟩]
  rfl

/-- One step of a remove-character filter on a kept head. -/
theorem filter_ne_cons_of_ne {x c : Char} (l : List Char) (h : c ≠ x) :
    (c :: l).filter (fun a => a ≠ x) = c :: l.filter (fun a => a ≠ x) := by
  simp [List.filter_cons, h]

/-- One step of a remove-character filter on a dropped head. -/
theorem filter_ne_cons_self (x : Char) (l : List Char) :
    (x :: l).filter (fun a => a ≠ x) = l.filter (fun a => a ≠ x) := by
  simp [List.filter_cons]

/-- One step of the digit filter on a digit head. -/
theorem filter_isDigit_cons_pos {c : Char} (l : List Char) (h : c.isDigit = true) :
    (c :: l).filter (fun a => a.isDigit) = c :: l.filter (fun a => a.isDigit) := by
  simp [List.filter_cons, h]

/-- One step of the digit filter on a non-digit head. -/
theorem filter_isDigit_cons_neg {c : Char} (l : List Char) (h : c.isDigit = false) :
    (c :: l).filter (fun a => a.isDigit) = l.filter (fun a => a.isDigit) := by
  simp [List.filter_cons, h]

/-- The source's separator-removal chain (spaces, commas, dots) on a
string of digits and grouping separators keeps exactly the digits. -/
theorem filter_seps (l : List Char)
    (h : ∀ c ∈ l, c.isDigit = true ∨ c = ',' ∨ c = '.') :
    ((l.filter (fun c => c ≠ ' ')).filter (fun c => c ≠ ',')).filter (fun c => c ≠ '.')
      = l.filter (fun c => c.isDigit) := by
  induction l with
  | nil => rfl
  | cons c l ih =>
    have ih2 := ih (fun x hx => h x (List.mem_cons_of_mem c hx))
    rcases h c (List.mem_cons_self c l) with hd | rfl | rfl
    · have h1 : c ≠ ' ' := digit_ne hd (by decide)
      have h2 : c ≠ ',' := digit_ne hd (by decide)
      have h3 : c ≠ '.' := digit_ne hd (by decide)
      rw [filter_ne_cons_of_ne _ h1, filter_ne_cons_of_ne _ h2,
        filter_ne_cons_of_ne _ h3, filter_isDigit_cons_pos _ hd, ih2]
    · rw [filter_ne_cons_of_ne _ (by decide : (',':Char) ≠ ' '), filter_ne_cons_self,
        filter_isDigit_cons_neg _ (by decide), ih2]
    · rw [filter_ne_cons_of_ne _ (by decide : ('.':Char) ≠ ' '),
        filter_ne_cons_of_ne _ (by decide : ('.':Char) ≠ ','), filter_ne_cons_self,
        filter_isDigit_cons_neg _ (by decide), ih2]

/-- C8: `parse_decimal` treats a single comma (in a dot-free string) as
the decimal point and otherwise strips commas as grouping separators
with the dot as decimal point: on digit strings `a`, `b`, `c`,
`parse_decimal (a ++ "," ++ b)` is `a.b` as a rational and
`parse_decimal (a ++ "," ++ b ++ "." ++ c)` is `ab.c`; in particular
`"10,5" = 10.5`, `"12,345.6" = 12345.6`, `"10.5" = 10.5`. -/
theorem C8_parse_decimal_separators :
    (∀ a b : List Char, (∀ c ∈ a, c.isDigit = true) → (∀ c ∈ b, c.isDigit = true) →
        a ≠ [] →
        parse_decimal ⟨a ++ ',' :: b⟩
          = (natVal a : ℚ) + (natVal b : ℚ) / 10 ^ b.length) ∧
    (∀ a b c : List Char, (∀ x ∈ a, x.isDigit = true) → (∀ x ∈ b, x.isDigit = true) →
        (∀ x ∈ c, x.isDigit = true) → a ≠ [] →
        parse_decimal ⟨a ++ ',' :: (b ++ '.' :: c)⟩
          = (natVal (a ++ b) : ℚ) + (natVal c : ℚ) / 10 ^ c.length) ∧
    parse_decimal "10,5" = 21 / 2 ∧
    parse_decimal "12,345.6" = 61728 / 5 ∧
    parse_decimal "10.5" = 21 / 2 := by
  refine ⟨fun a b ha hb hne => ?_, fun a b c ha hb hc hne => ?_, ?_, ?_, ?_⟩
  · have hl : ∀ x ∈ (a ++ ',' :: b), pyIsSpace x = false := by
      intro x hx
      rcases List.mem_append.mp hx with h1 | h1
      · exact pyIsSpace_eq_false_of_isDigit (ha x h1)
      · rcases List.mem_cons.mp h1 with rfl | h1
        · decide
        · exact pyIsSpace_eq_false_of_isDigit (hb x h1)
    have hfilter : (a ++ ',' :: b).filter (fun x => x ≠ ' ') = a ++ ',' :: b :=
      List.filter_eq_self.mpr (fun x hx => by
        rcases List.mem_append.mp hx with h1 | h1
        · simpa using digit_ne (ha x h1) (by decide)
        · rcases List.mem_cons.mp h1 with rfl | h1
          · decide
          · simpa using digit_ne (hb x h1) (by decide))
    have hcA : a.count ',' = 0 := List.count_eq_zero.mpr
      (fun hm => absurd (ha ',' hm) (by decide))
    have hcB : b.count ',' = 0 := List.count_eq_zero.mpr
      (fun hm => absurd (hb ',' hm) (by decide))
    have hdA : a.count '.' = 0 := List.count_eq_zero.mpr
      (fun hm => absurd (ha '.' hm) (by decide))
    have hdB : b.count '.' = 0 := List.count_eq_zero.mpr
      (fun hm => absurd (hb '.' hm) (by decide))
    have hc1 : (a ++ ',' :: b).count ',' = 1 := by
      rw [List.count_append, List.count_cons, hcA, hcB]
      simp
    have hc2 : (a ++ ',' :: b).count '.' = 0 := by
      rw [List.count_append, List.count_cons, hdA, hdB]
      simp
    have hmapa : ∀ x ∈ a, (fun ch => if ch = ',' then '.' else ch) x = x :=
      fun x hx => if_neg (digit_ne (ha x hx) (by decide))
    have hmapb : ∀ x ∈ b, (fun ch => if ch = ',' then '.' else ch) x = x :=
      fun x hx => if_neg (digit_ne (hb x hx) (by decide))
    have hmap : (a ++ ',' :: b).map (fun ch => if ch = ',' then '.' else ch)
        = a ++ '.' :: b := by
      rw [List.map_append, List.map_cons]
      rw [List.map_congr_left hmapa, List.map_congr_left hmapb]
      simp
    simp only [parse_decimal]
    rw [pyStrip_eq_self hl, hfilter, if_pos ⟨hc1, hc2⟩, hmap,
      pyFloat_digits_dot a b ha hb hne]
  · have hl : ∀ x ∈ (a ++ ',' :: (b ++ '.' :: c)), pyIsSpace x = false := by
      intro x hx
      rcases List.mem_append.mp hx with h1 | h1
      · exact pyIsSpace_eq_false_of_isDigit (ha x h1)
      · rcases List.mem_cons.mp h1 with rfl | h1
        · decide
        · rcases List.mem_append.mp h1 with h2 | h2
          · exact pyIsSpace_eq_false_of_isDigit (hb x h2)
          · rcases List.mem_cons.mp h2 with rfl | h2
            · decide
            · exact pyIsSpace_eq_false_of_isDigit (hc x h2)
    have hfilter : (a ++ ',' :: (b ++ '.' :: c)).filter (fun x => x ≠ ' ')
        = a ++ ',' :: (b ++ '.' :: c) :=
      List.filter_eq_self.mpr (fun x hx => by
        rcases List.mem_append.mp hx with h1 | h1
        · simpa using digit_ne (ha x h1) (by decide)
        · rcases List.mem_cons.mp h1 with rfl | h1
          · decide
          · rcases List.mem_append.mp h1 with h2 | h2
            · simpa using digit_ne (hb x h2) (by decide)
            · rcases List.mem_cons.mp h2 with rfl | h2
              · decide
              · simpa using digit_ne (hc x h2) (by decide))
    have hdB : (b ++ '.' :: c).count '.' = 1 := by
      have hb0 : b.count '.' = 0 := List.count_eq_zero.mpr
        (fun hm => absurd (hb '.' hm) (by decide))
      have hc0 : c.count '.' = 0 := List.count_eq_zero.mpr
        (fun hm => absurd (hc '.' hm) (by decide))
      rw [List.count_append, List.count_cons, hb0, hc0]
      simp
    have hc2 : (a ++ ',' :: (b ++ '.' :: c)).count '.' = 1 := by
      have ha0 : a.count '.' = 0 := List.count_eq_zero.mpr
        (fun hm => absurd (ha '.' hm) (by decide))
      rw [List.count_append, List.count_cons, ha0, hdB]
      simp
    have hcond : ¬((a ++ ',' :: (b ++ '.' :: c)).count ',' = 1
        ∧ (a ++ ',' :: (b ++ '.' :: c)).count '.' = 0) := by
      rintro ⟨-, h2⟩
      rw [hc2] at h2
      cases h2
    have hfa : a.filter (fun x => x ≠ ',') = a :=
      List.filter_eq_self.mpr (fun x hx => by
        simpa using digit_ne (ha x hx) (by decide))
    have hfbc : (b ++ '.' :: c).filter (fun x => x ≠ ',') = b ++ '.' :: c :=
      List.filter_eq_self.mpr (fun x hx => by
        rcases List.mem_append.mp hx with h2 | h2
        · simpa using digit_ne (hb x h2) (by decide)
        · rcases List.mem_cons.mp h2 with rfl | h2
          · decide
          · simpa using digit_ne (hc x h2) (by decide))
    have hab : ∀ x ∈ a ++ b, x.isDigit = true := by
      intro x hx
      rcases List.mem_append.mp hx with h2 | h2
      · exact ha x h2
      · exact hb x h2
    have habne : a ++ b ≠ [] := fun hnil => hne (List.append_eq_nil.mp hnil).1
    simp only [parse_decimal]
    rw [pyStrip_eq_self hl, hfilter, if_neg hcond, List.filter_append, hfa,
      filter_ne_cons_self, hfbc, ← List.append_assoc,
      pyFloat_digits_dot (a ++ b) c hab hc habne]
  · simp +decide [parse_decimal, pyStrip, pyIsSpace, pyFloat, pyFloatUnsigned, natVal]
    norm_num
  · simp +decide [parse_decimal, pyStrip, pyIsSpace, pyFloat, pyFloatUnsigned, natVal]
    norm_num
  · simp +decide [parse_decimal, pyStrip, pyIsSpace, pyFloat, pyFloatUnsigned, natVal]
    norm_num

/-- Witness for C8: the comma-as-decimal-point branch at the concrete
digit strings of the spec's own example `"10,5"`. -/
theorem C8_witness :
    (∀ c ∈ ['1', '0'], c.isDigit = true) ∧ (['1', '0'] : List Char) ≠ [] ∧
    parse_decimal ⟨['1', '0'] ++ ',' :: ['5']⟩
      = (natVal ['1', '0'] : ℚ) + (natVal ['5'] : ℚ) / 10 ^ (['5'] : List Char).length := by
  refine ⟨by decide, by decide, ?_⟩
  exact C8_parse_decimal_separators.1 ['1', '0'] ['5'] (by decide) (by decide) (by decide)

/-- C9: both parsers are total — the source's except-clauses map every
parse failure to `0`, and `parse_money` always returns an
integer-valued amount — and every input whose remainder Python's
builtins provably reject yields exactly `0`: `parse_money` on every
ASCII input without a decimal digit (`int()` requires at least one,
and the ASCII bound rules out the Unicode digits it would also
accept), and `parse_decimal` on every ASCII input without a decimal
digit or letter (letters are excluded because `float()` accepts the
words inf and nan, whose non-finite values lie outside the rational
model).  Empty and separator-only strings are instances of both
universals; the malformed remainder `"abc"` (rejected by `float()`)
and both grouping forms of five million are checked concretely. -/
theorem C9_parsers_total :
    (∀ s : String, (∀ c ∈ s.data, c.toNat < 128 ∧ c.isDigit = false) →
        parse_money s = 0) ∧
    (∀ s : String,
        (∀ c ∈ s.data, c.toNat < 128 ∧ c.isAlpha = false ∧ c.isDigit = false) →
        parse_decimal s = 0) ∧
    (∀ s : String, ∃ k : ℤ, parse_money s = (k : ℚ)) ∧
    parse_money "5,000,000" = 5000000 ∧
    parse_money "5.000.000" = 5000000 ∧
    parse_money "" = 0 ∧
    parse_decimal "" = 0 ∧
    parse_decimal "abc" = 0 := by
  refine ⟨fun s hsA => ?_, fun s hsA => ?_, fun s => ?_, ?_, ?_, ?_, ?_, ?_⟩
  · have hs : ∀ c ∈ s.data, c.isDigit = false := fun c hc => (hsA c hc).2
    simp only [parse_money]
    split_ifs with h1 h2
    · rfl
    · rfl
    · have hnd : ∀ c ∈ (((pyStrip s.data).filter (fun c => c ≠ ' ')).filter
          (fun c => c ≠ ',')).filter (fun c => c ≠ '.'), c.isDigit = false :=
        fun c hc => hs c (mem_pyStrip (List.mem_of_mem_filter
          (List.mem_of_mem_filter (List.mem_of_mem_filter hc))))
      rw [pyInt_none hnd]
  · have hs : ∀ c ∈ s.data, c.isDigit = false := fun c hc => (hsA c hc).2.2
    simp only [parse_decimal]
    split_ifs with h1
    · have hnd : ∀ c ∈ ((pyStrip s.data).filter (fun c => c ≠ ' ')).map
          (fun c => if c = ',' then '.' else c), c.isDigit = false := by
        intro c hcm
        rcases List.mem_map.mp hcm with ⟨x, hx, rfl⟩
        by_cases hx2 : x = ','
        · rw [if_pos hx2]
          decide
        · rw [if_neg hx2]
          exact hs x (mem_pyStrip (List.mem_of_mem_filter hx))
      rw [pyFloat_none hnd]
    · have hnd : ∀ c ∈ ((pyStrip s.data).filter (fun c => c ≠ ' ')).filter
          (fun c => c ≠ ','), c.isDigit = false :=
        fun c hc => hs c (mem_pyStrip (List.mem_of_mem_filter
          (List.mem_of_mem_filter hc)))
      rw [pyFloat_none hnd]
  · simp only [parse_money]
    split_ifs
    · exact ⟨0, by norm_num⟩
    · exact ⟨0, by norm_num⟩
    · cases hpi : pyInt ((((pyStrip s.data).filter (fun c => c ≠ ' ')).filter
          (fun c => c ≠ ',')).filter (fun c => c ≠ '.')) with
      | none => exact ⟨0, by norm_num⟩
      | some k => exact ⟨k, rfl⟩
  · decide
  · decide
  · decide
  · decide
  · decide

/-- Witness for C9 on the separator-only string `",."` (ASCII, no
letters, no digits): both parsers return `0`. -/
theorem C9_witness :
    (∀ c ∈ (",.".data), c.toNat < 128 ∧ c.isAlpha = false ∧ c.isDigit = false) ∧
    parse_money ",." = 0 ∧ parse_decimal ",." = 0 := by
  refine ⟨by decide, C9_parsers_total.1 ",." (by decide),
    C9_parsers_total.2.1 ",." (by decide)⟩

/-- C10 (implicit): `parse_money` preserves a leading minus sign — for a
minus sign followed by digits and grouping separators containing at
least one digit, it returns the negated integer value — while the lone
string `"-"` yields `0`, so the public parsing boundary can deliver
negative amounts. -/
theorem C10_parse_money_negative :
    (∀ l : List Char, (∀ c ∈ l, c.isDigit = true ∨ c = ',' ∨ c = '.') →
        l.filter (fun c => c.isDigit) ≠ [] →
        parse_money ⟨'-' :: l⟩
          = -((natVal (l.filter (fun c => c.isDigit)) : ℚ))) ∧
    parse_money "-" = 0 ∧
    parse_money "-5,000" = -5000 := by
  refine ⟨fun l h hne => ?_, by decide, by decide⟩
  have hsp : ∀ c ∈ ('-' :: l), pyIsSpace c = false := by
    intro c hcm
    rcases List.mem_cons.mp hcm with rfl | hcm
    · decide
    · rcases h c hcm with hd | rfl | rfl
      · exact pyIsSpace_eq_false_of_isDigit hd
      · decide
      · decide
  have hcond : ¬('-' :: l.filter (fun c => c.isDigit) = []
      ∨ '-' :: l.filter (fun c => c.isDigit) = ['-']) := by
    rintro (h1 | h1)
    · exact List.cons_ne_nil _ _ h1
    · refine hne ?_
      simpa using h1
  simp only [parse_money]
  rw [pyStrip_eq_self hsp, if_neg (List.cons_ne_nil '-' l),
    filter_ne_cons_of_ne _ (by decide : ('-':Char) ≠ ' '),
    filter_ne_cons_of_ne _ (by decide : ('-':Char) ≠ ','),
    filter_ne_cons_of_ne _ (by decide : ('-':Char) ≠ '.'),
    filter_seps l h, if_neg hcond,
    pyInt_neg_digits _ (fun c hcm => (List.mem_filter.mp hcm).2) hne]
  push_cast
  ring

/-- Witness for C10: `parse_money "-5,000"` through the general
negative-sign theorem at the concrete digit-and-separator list. -/
theorem C10_witness :
    (∀ c ∈ ['5', ',', '0', '0', '0'], c.isDigit = true ∨ c = ',' ∨ c = '.') ∧
    parse_money ⟨'-' :: ['5', ',', '0', '0', '0']⟩
      = -((natVal (['5', ',', '0', '0', '0'].filter (fun c => c.isDigit)) : ℚ)) := by
  refine ⟨by decide, ?_⟩
  exact C10_parse_money_negative.1 ['5', ',', '0', '0', '0'] (by decide) (by decide)

end Kpr
